import Mathlib

set_option maxRecDepth 100000

/-!
Verification of the Vouch audit-trail engine (logger / hasher / verifier /
session) against its natural-language specification.

The Python sources are shallowly embedded: pure functions become Lean
functions, machine words are `Nat` with explicit `% 2^32`, fallible code
returns `Except`, and the process state touched by `TraceSession` is passed
explicitly.  `hashlib.sha256` is embedded as a full executable SHA-256 over
byte lists, so that hash values appearing in theorems are the real digests.
-/

namespace Vouch

/-! ## SHA-256 (embedding of `hashlib.sha256`)

A direct implementation of FIPS 180-4 SHA-256 over `List Nat` bytes,
32-bit words represented as `Nat` reduced mod `2^32`. -/

namespace SHA256

def M32 : Nat := 4294967296

def rotr (n x : Nat) : Nat := ((x >>> n) ||| (x <<< (32 - n))) % M32

def ch (x y z : Nat) : Nat := (x &&& y) ^^^ ((x ^^^ (M32 - 1)) &&& z)

def maj (x y z : Nat) : Nat := (x &&& y) ^^^ (x &&& z) ^^^ (y &&& z)

def bsig0 (x : Nat) : Nat := (rotr 2 x) ^^^ (rotr 13 x) ^^^ (rotr 22 x)

def bsig1 (x : Nat) : Nat := (rotr 6 x) ^^^ (rotr 11 x) ^^^ (rotr 25 x)

def ssig0 (x : Nat) : Nat := (rotr 7 x) ^^^ (rotr 18 x) ^^^ (x >>> 3)

def ssig1 (x : Nat) : Nat := (rotr 17 x) ^^^ (rotr 19 x) ^^^ (x >>> 10)

def K : List Nat :=
  [1116352408, 1899447441, 3049323471, 3921009573, 961987163,
   1508970993, 2453635748, 2870763221, 3624381080, 310598401,
   607225278, 1426881987, 1925078388, 2162078206, 2614888103,
   3248222580, 3835390401, 4022224774, 264347078, 604807628,
   770255983, 1249150122, 1555081692, 1996064986, 2554220882,
   2821834349, 2952996808, 3210313671, 3336571891, 3584528711,
   113926993, 338241895, 666307205, 773529912, 1294757372,
   1396182291, 1695183700, 1986661051, 2177026350, 2456956037,
   2730485921, 2820302411, 3259730800, 3345764771, 3516065817,
   3600352804, 4094571909, 275423344, 430227734, 506948616,
   659060556, 883997877, 958139571, 1322822218, 1537002063,
   1747873779, 1955562222, 2024104815, 2227730452, 2361852424,
   2428436474, 2756734187, 3204031479, 3329325298]

/-- Working state `a..h` of the compression function. -/
structure St where
  a : Nat
  b : Nat
  c : Nat
  d : Nat
  e : Nat
  f : Nat
  g : Nat
  h : Nat

def H0 : St :=
  ⟨1779033703, 3144134277, 1013904242, 2773480762,
   1359893119, 2600822924, 528734635, 1541459225⟩

/-- One round of the compression function with round constant `k` and
schedule word `w`. -/
def round (k w : Nat) (s : St) : St :=
  let t1 := (s.h + bsig1 s.e + ch s.e s.f s.g + k + w) % M32
  let t2 := (bsig0 s.a + maj s.a s.b s.c) % M32
  ⟨(t1 + t2) % M32, s.a, s.b, s.c, (s.d + t1) % M32, s.e, s.f, s.g⟩

/-- Extend a 16-word block, appending `fuel` schedule words. -/
def extendSched : Nat → List Nat → List Nat
  | 0, ws => ws
  | n + 1, ws =>
      let t := ws.length
      let w := (ssig1 (ws.getD (t - 2) 0) + ws.getD (t - 7) 0 +
                ssig0 (ws.getD (t - 15) 0) + ws.getD (t - 16) 0) % M32
      extendSched n (ws ++ [w])

/-- Compress one 16-word block into the running hash state. -/
def compress (st : St) (block : List Nat) : St :=
  let ws := extendSched 48 block
  match st, (K.zip ws).foldl (fun s kw => round kw.1 kw.2 s) st with
  | ⟨a, b, c, d, e, f, g, h⟩, ⟨a2, b2, c2, d2, e2, f2, g2, h2⟩ =>
      ⟨(a + a2) % M32, (b + b2) % M32, (c + c2) % M32, (d + d2) % M32,
       (e + e2) % M32, (f + f2) % M32, (g + g2) % M32, (h + h2) % M32⟩

/-- Split a list into chunks of `n` (recursion measured by `fuel`). -/
def chunksAux (n : Nat) : Nat → List Nat → List (List Nat)
  | 0, _ => []
  | _, [] => []
  | fuel + 1, l => l.take n :: chunksAux n fuel (l.drop n)

def chunks (n : Nat) (l : List Nat) : List (List Nat) := chunksAux n l.length l

/-- Big-endian bytes of `x`, `n` bytes long. -/
def beBytes : Nat → Nat → List Nat
  | 0, _ => []
  | n + 1, x => (x >>> (8 * n)) % 256 :: beBytes n x

/-- SHA-256 padding: append `0x80`, zero bytes to 56 mod 64, then the
64-bit big-endian bit length. -/
def pad (msg : List Nat) : List Nat :=
  let l := msg.length
  let zeros := (64 + 55 - (l % 64)) % 64
  msg ++ [0x80] ++ List.replicate zeros 0 ++ beBytes 8 (8 * l)

/-- Group 4 bytes into one big-endian 32-bit word each. -/
def toWords (bytes : List Nat) : List Nat :=
  (chunks 4 bytes).map fun c =>
    ((c.getD 0 0) <<< 24) + ((c.getD 1 0) <<< 16) + ((c.getD 2 0) <<< 8) + c.getD 3 0

def hexDigit (n : Nat) : Char :=
  if n < 10 then Char.ofNat (48 + n) else Char.ofNat (87 + n)

/-- Lowercase hex of a 32-bit word, 8 digits. -/
def wordHex (w : Nat) : List Char :=
  [hexDigit ((w >>> 28) % 16), hexDigit ((w >>> 24) % 16), hexDigit ((w >>> 20) % 16),
   hexDigit ((w >>> 16) % 16), hexDigit ((w >>> 12) % 16), hexDigit ((w >>> 8) % 16),
   hexDigit ((w >>> 4) % 16), hexDigit (w % 16)]

/-- SHA-256 digest of a byte list, as a lowercase 64-char hex string. -/
def hexDigest (msg : List Nat) : String :=
  match ((chunks 16 (toWords (pad msg)))).foldl compress H0 with
  | ⟨a, b, c, d, e, f, g, h⟩ =>
      ⟨wordHex a ++ wordHex b ++ wordHex c ++ wordHex d ++
       wordHex e ++ wordHex f ++ wordHex g ++ wordHex h⟩

end SHA256

/-- UTF-8 encoding of one character (embedding `str.encode("utf-8")`). -/
def utf8Char (c : Char) : List Nat :=
  let n := c.toNat
  if n < 0x80 then [n]
  else if n < 0x800 then [0xC0 ||| (n >>> 6), 0x80 ||| (n &&& 0x3F)]
  else if n < 0x10000 then
    [0xE0 ||| (n >>> 12), 0x80 ||| ((n >>> 6) &&& 0x3F), 0x80 ||| (n &&& 0x3F)]
  else
    [0xF0 ||| (n >>> 18), 0x80 ||| ((n >>> 12) &&& 0x3F),
     0x80 ||| ((n >>> 6) &&& 0x3F), 0x80 ||| (n &&& 0x3F)]

def utf8Bytes (s : String) : List Nat := (s.data.map utf8Char).flatten

/-- Embeds `hashlib.sha256(s.encode("utf-8")).hexdigest()`. -/
def sha256String (s : String) : String := SHA256.hexDigest (utf8Bytes s)

/-! ## Python values

First-order Python values: the argument/result/entry data that flows through
`Logger.log_call`, `PIIDetector.sanitize` and `Hasher.hash_object`.  Dict
keys are strings, as in every value the logger builds or parses from the
audit log (the hasher behaviour on arbitrary dynamic objects, including
non-string keys, cycles and unstable reprs, is modelled separately below in
the heap-based model).  -/

inductive PV where
  | str (s : String)
  | int (n : Int)
  | bool (b : Bool)
  | noneV
  | tuple (xs : List PV)
  | list (xs : List PV)
  | dict (kvs : List (String × PV))

/-- Exceptions (subclasses of Python `Exception`) that the embedded code can
raise.  `recursionErr` models `RecursionError` from exceeding the
interpreter recursion limit. -/
inductive PyErr where
  | valueError (msg : String)
  | typeErr (msg : String)
  | recursionErr
  | runtimeErr (msg : String)
  | fileNotFound (msg : String)
  | attributeErr (msg : String)
  | genericErr (msg : String)
deriving DecidableEq, Repr

def PyErr.isValueError : PyErr → Bool
  | .valueError _ => true
  | _ => false

/-- A single-quote character (written via its code point). -/
def sq : Char := Char.ofNat 39

/-- Embeds `v is None`. -/
def PV.isNoneV : PV → Bool
  | .noneV => true
  | _ => false

/-- The `type(obj).__name__` of a first-order value. -/
def PV.typeName : PV → String
  | .str _ => "str"
  | .int _ => "int"
  | .bool _ => "bool"
  | .noneV => "NoneType"
  | .tuple _ => "tuple"
  | .list _ => "list"
  | .dict _ => "dict"

/-- Substring containment (`needle in hay` on Python strings). -/
def containsSub (hay needle : String) : Bool :=
  go hay.data
where
  go : List Char → Bool
    | [] => needle.data.isEmpty
    | c :: cs => needle.data.isPrefixOf (c :: cs) || go cs

/-- Hex digits of `n` padded to `w` digits (lowercase). -/
def hexPad (w n : Nat) : List Char :=
  (List.range w).reverse.map fun i => SHA256.hexDigit ((n >>> (4 * i)) % 16)

/-! ### `repr` / `str` of first-order values (CPython semantics)

The recursion is bounded by `fuel`; exhausting it raises `RecursionError`,
as CPython does when the recursion limit is hit.  All concrete evaluations
in this file use a fuel far above the depth of the values involved. -/

/-- Quote character CPython `repr` picks for a string: single quotes unless
the string has a single quote and no double quote. -/
def reprQuote (s : String) : Char :=
  if s.data.contains sq && !(s.data.contains '"') then '"' else sq

/-- Escaping of one character inside a `repr` string literal (ASCII range;
the values in this development are ASCII). -/
def reprCharEsc (q c : Char) : List Char :=
  if c = '\\' then ['\\', '\\']
  else if c = q then ['\\', q]
  else if c = '\n' then ['\\', 'n']
  else if c = '\r' then ['\\', 'r']
  else if c = '\t' then ['\\', 't']
  else if c.toNat < 32 || c.toNat == 127 then '\\' :: 'x' :: hexPad 2 c.toNat
  else [c]

/-- CPython `repr` of a string. -/
def strRepr (s : String) : String :=
  let q := reprQuote s
  ⟨q :: (s.data.map (reprCharEsc q)).flatten ++ [q]⟩

/-- CPython `repr` of a first-order value. -/
def pyReprF : Nat → PV → Except PyErr String
  | 0, _ => .error .recursionErr
  | f + 1, v =>
    match v with
    | .str s => .ok (strRepr s)
    | .int n => .ok (toString n)
    | .bool b => .ok (if b then "True" else "False")
    | .noneV => .ok "None"
    | .tuple xs => do
        let rs ← reprList f xs
        match rs with
        | [r] => pure ("(" ++ r ++ ",)")
        | _ => pure ("(" ++ String.intercalate ", " rs ++ ")")
    | .list xs => do
        let rs ← reprList f xs
        pure ("[" ++ String.intercalate ", " rs ++ "]")
    | .dict kvs => do
        let rs ← reprKVs f kvs
        pure ("\x7b" ++ String.intercalate ", " rs ++ "\x7d")
where
  reprList : Nat → List PV → Except PyErr (List String)
    | 0, _ => .error .recursionErr
    | _, [] => .ok []
    | f + 1, x :: xs => do
        let r ← pyReprF f x
        let rs ← reprList f xs
        pure (r :: rs)
  reprKVs : Nat → List (String × PV) → Except PyErr (List String)
    | 0, _ => .error .recursionErr
    | _, [] => .ok []
    | f + 1, (k, x) :: xs => do
        let r ← pyReprF f x
        let rs ← reprKVs f xs
        pure ((strRepr k ++ ": " ++ r) :: rs)

/-- CPython `str` of a first-order value: the string itself for strings,
`repr` otherwise. -/
def pyStrF (f : Nat) : PV → Except PyErr String
  | .str s => .ok s
  | v => pyReprF f v

/-! ### JSON serialization (embedding of `json.dump(..., sort_keys=True)`
with the default separators and `ensure_ascii=True`) -/

/-- JSON escaping of one character, `ensure_ascii` style. -/
def jsonCharEsc (c : Char) : List Char :=
  if c = '"' then ['\\', '"']
  else if c = '\\' then ['\\', '\\']
  else if c = '\n' then ['\\', 'n']
  else if c = '\r' then ['\\', 'r']
  else if c = '\t' then ['\\', 't']
  else if c.toNat == 8 then ['\\', 'b']
  else if c.toNat == 12 then ['\\', 'f']
  else if c.toNat < 32 || c.toNat ≥ 127 then
    if c.toNat < 0x10000 then '\\' :: 'u' :: hexPad 4 c.toNat
    else
      let n := c.toNat - 0x10000
      ('\\' :: 'u' :: hexPad 4 (0xD800 + (n >>> 10))) ++
      ('\\' :: 'u' :: hexPad 4 (0xDC00 + (n &&& 0x3FF)))
  else [c]

/-- JSON string literal. -/
def jsonStrLit (s : String) : String :=
  ⟨'"' :: (s.data.map jsonCharEsc).flatten ++ ['"']⟩

/-- Lexicographic (code-point) order on strings, as `sorted` uses. -/
def strLe (a b : String) : Bool :=
  go a.data b.data
where
  go : List Char → List Char → Bool
    | [], _ => true
    | _ :: _, [] => false
    | x :: xs, y :: ys =>
        if x.toNat < y.toNat then true
        else if y.toNat < x.toNat then false
        else go xs ys

/-- Insert into a sorted list, after any equal elements (stability). -/
def insSorted (le : α → α → Bool) (x : α) : List α → List α
  | [] => [x]
  | y :: ys => if le y x then y :: insSorted le x ys else x :: y :: ys

/-- A stable sort (insertion sort), embedding Python `sorted`. -/
def stableSortBy (le : α → α → Bool) (l : List α) : List α :=
  l.foldl (fun acc x => insSorted le x acc) []

/-- Embeds `json.dump(v, writer, sort_keys=True, ...)` on a first-order value:
the exact text the encoder streams into the hasher.  Tuples serialize as
arrays; object members are sorted by key and joined with the default
separators. -/
def jsonEncF : Nat → PV → Except PyErr String
  | 0, _ => .error .recursionErr
  | f + 1, v =>
    match v with
    | .str s => .ok (jsonStrLit s)
    | .int n => .ok (toString n)
    | .bool b => .ok (if b then "true" else "false")
    | .noneV => .ok "null"
    | .tuple xs => do
        let rs ← encList f xs
        pure ("[" ++ String.intercalate ", " rs ++ "]")
    | .list xs => do
        let rs ← encList f xs
        pure ("[" ++ String.intercalate ", " rs ++ "]")
    | .dict kvs => do
        let rs ← encKVs f kvs
        let sorted := stableSortBy (fun a b => strLe a.1 b.1) rs
        pure ("\x7b" ++
          String.intercalate ", " (sorted.map fun kv => jsonStrLit kv.1 ++ ": " ++ kv.2) ++
          "\x7d")
where
  encList : Nat → List PV → Except PyErr (List String)
    | 0, _ => .error .recursionErr
    | _, [] => .ok []
    | f + 1, x :: xs => do
        let r ← jsonEncF f x
        let rs ← encList f xs
        pure (r :: rs)
  encKVs : Nat → List (String × PV) → Except PyErr (List (String × String))
    | 0, _ => .error .recursionErr
    | _, [] => .ok []
    | f + 1, (k, x) :: xs => do
        let r ← jsonEncF f x
        let rs ← encKVs f xs
        pure ((k, r) :: rs)

/-! ### `Hasher.hash_object` on first-order values

Embedding of `Hasher.hash_object` (src/vouch/hasher.py, lines 108-205)
restricted to first-order values.  For these values the custom registry is
empty (its module-load state), none of the carriers define
`__vouch_hash__`, `to_csv` or `tobytes`, so steps 0-2 and the array/table
branches fall through; dicts take the `json.dump` branch (whose
`StableJSONEncoder.default` is never invoked, all members being natively
serializable), everything else the default-`str` branch with its
unstable-repr check. -/

/-- The message of the `ValueError` raised for an unstable default repr. -/
def unstableMsg (tn : String) : String :=
  "Unstable hash for <class " ++ ⟨[sq]⟩ ++ tn ++ ⟨[sq]⟩ ++
  ">: Default repr contains memory address. Use light_mode or register a custom hasher."

/-- The manual fallback of the dict branch: keys sorted by `str(key)`,
items rendered with `repr`, wrapped in braces. -/
def dictFallbackText (f : Nat) (kvs : List (String × PV)) : Except PyErr String := do
  let sorted := stableSortBy (fun a b => strLe a.1 b.1) kvs
  let items ← go f sorted
  pure ("\x7b" ++ String.intercalate ", " items ++ "\x7d")
where
  go : Nat → List (String × PV) → Except PyErr (List String)
    | 0, _ => .error .recursionErr
    | _, [] => .ok []
    | f + 1, (k, v) :: rest => do
        let r ← pyReprF f v
        let rs ← go f rest
        pure ((strRepr k ++ ": " ++ r) :: rs)

/-- Embeds `Hasher.hash_object(v, raise_error)` on a first-order value. -/
def hashObjectV (f : Nat) (v : PV) (raiseErr : Bool) : Except PyErr String :=
  let core : Except PyErr String :=
    match v with
    | .dict kvs =>
        -- json.dump branch; on failure, the manually sorted repr fallback;
        -- if that fails too, re-raise the first error under raise_error,
        -- else the dict sentinel.
        match jsonEncF f v with
        | .ok j => .ok (sha256String j)
        | .error e =>
            match dictFallbackText f kvs with
            | .ok s => .ok (sha256String s)
            | .error _ => if raiseErr then .error e else .ok "HASH_FAILED_DICT"
    | _ =>
        match pyStrF f v with
        | .error e => .error e
        | .ok s =>
            if containsSub s " at 0x" && containsSub s ">" then
              -- none of these carriers has __dict__ or __slots__
              if raiseErr then .error (.valueError (unstableMsg v.typeName))
              else .ok (sha256String ("<Unstable: " ++ v.typeName ++ ">"))
            else .ok (sha256String s)
  -- the enclosing try: only a ValueError under raise_error propagates
  match core with
  | .ok s => .ok s
  | .error e => if e.isValueError && raiseErr then .error e else .ok "HASH_FAILED"

/-- The recursion-limit fuel used at every top-level call site
(`sys.getrecursionlimit()` default). -/
def recLimit : Nat := 1000

/-! ## PII scrubbing (embedding of `PIIDetector`, src/vouch/pii.py)

The four patterns of `PIIDetector.PATTERNS` are embedded as regular
expressions over a small syntax covering exactly the constructs they use
(character classes, literals, counted greedy/lazy repetition, word
boundaries), with a backtracking matcher whose preference order is
CPython `re`: leftmost match, greedy tries longer first, lazy shorter
first. -/

inductive RE where
  | cls (p : Char → Bool)
  | lit (c : Char)
  | seq (a b : RE)
  | rep (lo : Nat) (hi : Option Nat) (lzy : Bool) (r : RE)
  | wordB

/-- Python `\w` over the ASCII inputs in scope. -/
def isWordChar (c : Char) : Bool := c.isAlphanum || c = '_'

/-- Python `\b`: word character on exactly one side of the position. -/
def boundaryAt (prev : Option Char) (cs : List Char) : Bool :=
  let pw := match prev with | some c => isWordChar c | none => false
  let nw := match cs with | c :: _ => isWordChar c | [] => false
  pw != nw

/-- Backtracking matcher.  `prev` is the character before the current
position (for `\b`), `k` the continuation; the first success in
preference order is returned, as `(char before, remaining input)`. -/
def reMatch : Nat → RE → Option Char → List Char →
    (Option Char → List Char → Option (Option Char × List Char)) →
    Option (Option Char × List Char)
  | 0, _, _, _, _ => none
  | f + 1, r, prev, cs, k =>
    match r with
    | .cls p =>
        match cs with
        | c :: rest => if p c then k (some c) rest else none
        | [] => none
    | .lit c0 =>
        match cs with
        | c :: rest => if c = c0 then k (some c) rest else none
        | [] => none
    | .seq a b => reMatch f a prev cs (fun p2 cs2 => reMatch f b p2 cs2 k)
    | .wordB => if boundaryAt prev cs then k prev cs else none
    | .rep lo hi lzy r0 =>
        match lo with
        | n + 1 =>
            reMatch f r0 prev cs (fun p2 cs2 =>
              reMatch f (.rep n (hi.map (· - 1)) lzy r0) p2 cs2 k)
        | 0 =>
            match hi with
            | some 0 => k prev cs
            | _ =>
                let more := fun (_ : Unit) =>
                  reMatch f r0 prev cs (fun p2 cs2 =>
                    if cs2.length < cs.length then
                      reMatch f (.rep 0 (hi.map (· - 1)) lzy r0) p2 cs2 k
                    else none)
                if lzy then
                  match k prev cs with
                  | some res => some res
                  | none => more ()
                else
                  match more () with
                  | some res => some res
                  | none => k prev cs

/-- Matcher fuel; far above the backtracking depth of the embedded
patterns on the strings in scope. -/
def reFuel : Nat := 100000

/-- Embeds `re.sub(pattern, repl, s)`: scan left to right, replacing each
non-overlapping match (none of the embedded patterns can match empty). -/
def reSub (r : RE) (repl : String) (s : String) : String :=
  ⟨go (s.data.length + 1) none s.data⟩
where
  go : Nat → Option Char → List Char → List Char
    | 0, _, _ => []
    | _, _, [] => []
    | f + 1, prev, c :: cs =>
        match reMatch reFuel r prev (c :: cs) (fun p2 rest => some (p2, rest)) with
        | some (p2, rest) => repl.data ++ go f p2 rest
        | none => c :: go f (some c) cs

def digitC : RE := .cls Char.isDigit

/-- Embeds `\b[A-Za-z0-9._%+-]+@[A-Za-z0-9.-]+\.[A-Z|a-z]{2,}\b` -/
def emailRE : RE :=
  .seq .wordB (.seq
    (.rep 1 none false (.cls fun c =>
      c.isAlphanum || c = '.' || c = '_' || c = '%' || c = '+' || c = '-'))
    (.seq (.lit '@') (.seq
      (.rep 1 none false (.cls fun c => c.isAlphanum || c = '.' || c = '-'))
      (.seq (.lit '.') (.seq
        (.rep 2 none false (.cls fun c => c.isUpper || c = '|' || c.isLower))
        .wordB)))))

/-- Embeds `\b\d{1,3}\.\d{1,3}\.\d{1,3}\.\d{1,3}\b` -/
def ipRE : RE :=
  .seq .wordB (.seq (.rep 1 (some 3) false digitC)
    (.seq (.lit '.') (.seq (.rep 1 (some 3) false digitC)
      (.seq (.lit '.') (.seq (.rep 1 (some 3) false digitC)
        (.seq (.lit '.') (.seq (.rep 1 (some 3) false digitC) .wordB)))))))

/-- Embeds `\b\d{3}-\d{2}-\d{4}\b` -/
def ssnRE : RE :=
  .seq .wordB (.seq (.rep 3 (some 3) false digitC)
    (.seq (.lit '-') (.seq (.rep 2 (some 2) false digitC)
      (.seq (.lit '-') (.seq (.rep 4 (some 4) false digitC) .wordB)))))

/-- Embeds `\b(?:\d[ -]*?){13,16}\b` -/
def ccRE : RE :=
  .seq .wordB (.seq
    (.rep 13 (some 16) false
      (.seq digitC (.rep 0 none true (.cls fun c => c = ' ' || c = '-'))))
    .wordB)

/-- Embeds `PIIDetector.PATTERNS`, in insertion (substitution) order. -/
def piiPatterns : List (String × RE) :=
  [("EMAIL", emailRE), ("IP_ADDRESS", ipRE), ("US_SSN", ssnRE), ("CREDIT_CARD", ccRE)]

/-- Embeds `PIIDetector._sanitize_string`: substitute each pattern in order. -/
def sanitizeString (text : String) : String :=
  piiPatterns.foldl (fun t nr => reSub nr.2 ("<PII: " ++ nr.1 ++ ">") t) text

/-- Embeds `PIIDetector.sanitize` on first-order values.  The identity-keyed memo
of the source is a cache over an object graph; on these immutable trees it
does not change results and is omitted.  Strings are scrubbed, containers
rebuilt memberwise (dict keys, being strings, are scrubbed too), and
`int`/`bool`/`None` pass through. -/
def sanitizeF : Nat → PV → Except PyErr PV
  | 0, _ => .error .recursionErr
  | f + 1, v =>
    match v with
    | .str s => .ok (.str (sanitizeString s))
    | .list xs => do pure (.list (← sanList f xs))
    | .tuple xs => do pure (.tuple (← sanList f xs))
    | .dict kvs => do pure (.dict (← sanKVs f kvs))
    | .int n => .ok (.int n)
    | .bool b => .ok (.bool b)
    | .noneV => .ok .noneV
where
  sanList : Nat → List PV → Except PyErr (List PV)
    | 0, _ => .error .recursionErr
    | _, [] => .ok []
    | f + 1, x :: xs => do
        let r ← sanitizeF f x
        let rs ← sanList f xs
        pure (r :: rs)
  sanKVs : Nat → List (String × PV) → Except PyErr (List (String × PV))
    | 0, _ => .error .recursionErr
    | _, [] => .ok []
    | f + 1, (k, x) :: xs => do
        let r ← sanitizeF f x
        let rs ← sanKVs f xs
        pure ((sanitizeString k, r) :: rs)

/-! ## Logger (embedding of `Logger`, src/vouch/logger.py)

`Logger.log_call` builds one entry, updates the chain head and appends the
entry to the stream (NDJSON line) or the in-memory list; both hold the same
entries, modelled as one list. -/

/-- Embeds `"0" * 64`, the chain seed. -/
def zeros64 : String := ⟨List.replicate 64 '0'⟩

/-- One audit-log entry.  `errorInfo` carries the `error`/`error_type`
pair that `log_call` stores when the error is truthy, `extra_hashes` the
map stored when non-empty. -/
structure Entry where
  timestamp : String
  sequence_number : Nat
  previous_entry_hash : String
  action : String
  target : String
  args_repr : List String
  kwargs_repr : List (String × String)
  result_repr : String
  args_hash : String
  kwargs_hash : String
  result_hash : String
  errorInfo : Option (String × String)
  extra_hashes : Option (List (String × String))
deriving DecidableEq, Repr

/-- The entry as the Python dict `log_call` builds (insertion order as in
the source; hashing sorts the keys anyway). -/
def Entry.toPV (e : Entry) : PV :=
  .dict (
    [("timestamp", .str e.timestamp),
     ("sequence_number", .int e.sequence_number),
     ("previous_entry_hash", .str e.previous_entry_hash),
     ("action", .str e.action),
     ("target", .str e.target),
     ("args_repr", .list (e.args_repr.map PV.str)),
     ("kwargs_repr", .dict (e.kwargs_repr.map fun kv => (kv.1, PV.str kv.2))),
     ("result_repr", .str e.result_repr),
     ("args_hash", .str e.args_hash),
     ("kwargs_hash", .str e.kwargs_hash),
     ("result_hash", .str e.result_hash)]
    ++ (match e.errorInfo with
        | some et => [("error", .str et.1), ("error_type", .str et.2)]
        | none => [])
    ++ (match e.extra_hashes with
        | some m => [("extra_hashes", .dict (m.map fun kv => (kv.1, PV.str kv.2)))]
        | none => []))

/-- Embeds `Hasher.hash_object` with the default `raise_error=False`; total by
the safety net of its outer handler (`hash_object_total_ok` below). -/
def hashObjectD (v : PV) : String :=
  match hashObjectV recLimit v false with
  | .ok s => s
  | .error _ => "HASH_FAILED"

/-- Embeds `Hasher.hash_object(entry)` as used for the chain head
(src/vouch/logger.py line 134 and src/vouch/verifier.py line 274). -/
def hashEntry (e : Entry) : String := hashObjectD e.toPV

/-- Embeds `safe_repr` (src/vouch/logger.py lines 93-102): `repr` truncated to
1000 characters, any exception mapped to a type placeholder.  (No
first-order value has a `shape` attribute.) -/
def safeRepr (v : PV) : String :=
  match pyReprF recLimit v with
  | .ok s => if s.length > 1000 then ⟨s.data.take 1000⟩ ++ "..." else s
  | .error _ => "<" ++ v.typeName ++ ">"

/-- Logger configuration (fixed at construction). -/
structure LoggerCfg where
  light_mode : Bool
  strict : Bool
  detect_pii : Bool

/-- Mutable logger state: the entries written so far and the chain head. -/
structure LoggerState where
  log : List Entry
  sequence_number : Nat
  previous_entry_hash : String
deriving DecidableEq, Repr

/-- Embeds `Logger.__init__` state. -/
def Logger.init : LoggerState := ⟨[], 0, zeros64⟩

/-- The `error` argument of `log_call` during the call: initially an
exception (message, type name) or `None`; PII sanitization replaces it by
a plain string. -/
inductive ErrVal where
  | exc (msg ty : String)
  | strv (s : String)
  | noneE

/-- Python truthiness of the `error` variable. -/
def ErrVal.truthy : ErrVal → Bool
  | .exc _ _ => true
  | .strv s => !(s.data.isEmpty)
  | .noneE => false

def ErrVal.msgStr : ErrVal → String
  | .exc m _ => m
  | .strv s => s
  | .noneE => "None"

def ErrVal.tyName : ErrVal → String
  | .exc _ t => t
  | .strv _ => "str"
  | .noneE => "NoneType"

/-- One `log_call` invocation's inputs.  `argsTuple` records whether the
caller passed the positional arguments as a tuple (the interception layer)
or a list (the session's internal calls); `timestamp` is the wall-clock
value read at the top of the call. -/
structure CallData where
  timestamp : String
  target : String
  args : List PV
  argsTuple : Bool
  kwargs : List (String × PV)
  result : PV
  extra_hashes : Option (List (String × String))
  error : Option (String × String)

/-- The PII-sanitization block of `log_call` (lines 59-76): sequential
reassignment of `args`, `kwargs`, `result`, `error`; an exception leaves
the already-assigned variables sanitized and either aborts the call with
`RuntimeError` (strict) or proceeds with the partially sanitized data. -/
def piiPhase (strict : Bool) (args : List PV) (kwargs : List (String × PV))
    (result : PV) (err : ErrVal) :
    Except PyErr (List PV × List (String × PV) × PV × ErrVal) :=
  let fail : PyErr → (List PV × List (String × PV) × PV × ErrVal) →
      Except PyErr (List PV × List (String × PV) × PV × ErrVal) :=
    fun e st =>
      if strict then .error (.runtimeErr ("PII Sanitization failed: " ++ pyErrText e))
      else .ok st
  match sanitizeF.sanList recLimit args with
  | .error e => fail e (args, kwargs, result, err)
  | .ok args1 =>
    match sanitizeF.sanKVs recLimit kwargs with
    | .error e => fail e (args1, kwargs, result, err)
    | .ok kwargs1 =>
      let resStep : Except PyErr PV :=
        if !err.truthy && !result.isNoneV then sanitizeF recLimit result else .ok result
      match resStep with
      | .error e => fail e (args1, kwargs1, result, err)
      | .ok result1 =>
          -- error, if truthy, becomes the sanitized string of its message
          if err.truthy then
            .ok (args1, kwargs1, result1, .strv (sanitizeString err.msgStr))
          else .ok (args1, kwargs1, result1, err)
where
  pyErrText : PyErr → String
    | .valueError m => m
    | .typeErr m => m
    | .recursionErr => "maximum recursion depth exceeded"
    | .runtimeErr m => m
    | .fileNotFound m => m
    | .attributeErr m => m
    | .genericErr m => m

/-- The hashing block of `log_call` (lines 78-89): sentinels in light
mode, else `hash_object` of args, kwargs and (barring an error) result,
with `raise_error=strict`; exceptions propagate. -/
def hashPhase (cfg : LoggerCfg) (argsPV : PV) (kwargs : List (String × PV))
    (result : PV) (err : ErrVal) : Except PyErr (String × String × String) :=
  if cfg.light_mode then
    .ok ("SKIPPED_LIGHT", "SKIPPED_LIGHT",
         if err.truthy then "ERROR" else "SKIPPED_LIGHT")
  else
    match hashObjectV recLimit argsPV cfg.strict with
    | .error e => .error e
    | .ok ah =>
      match hashObjectV recLimit (.dict kwargs) cfg.strict with
      | .error e => .error e
      | .ok kh =>
          if err.truthy then .ok (ah, kh, "ERROR")
          else
            match hashObjectV recLimit result cfg.strict with
            | .error e => .error e
            | .ok rh => .ok (ah, kh, rh)

/-- Embeds `Logger.log_call` (src/vouch/logger.py lines 54-143).  Returns the
new logger state; raises (as the source does) only out of strict-mode PII
or hashing failures. -/
def logCall (cfg : LoggerCfg) (st : LoggerState) (c : CallData) :
    Except PyErr LoggerState :=
  let err0 : ErrVal := match c.error with
    | some et => .exc et.1 et.2
    | none => .noneE
  let sanitized :=
    if cfg.detect_pii then
      piiPhase cfg.strict c.args c.kwargs c.result err0
    else .ok (c.args, c.kwargs, c.result, err0)
  match sanitized with
  | .error e => .error e
  | .ok (args, kwargs, result, err) =>
    let argsPV : PV := if c.argsTuple then .tuple args else .list args
    match hashPhase cfg argsPV kwargs result err with
    | .error e => .error e
    | .ok (args_hash, kwargs_hash, result_hash) =>
      let entry : Entry :=
        { timestamp := c.timestamp
          sequence_number := st.sequence_number + 1
          previous_entry_hash := st.previous_entry_hash
          action := "call"
          target := c.target
          args_repr := args.map safeRepr
          kwargs_repr := kwargs.map fun kv => (kv.1, safeRepr kv.2)
          result_repr := if err.truthy then "ERROR" else safeRepr result
          args_hash := args_hash
          kwargs_hash := kwargs_hash
          result_hash := result_hash
          errorInfo := if err.truthy then some (err.msgStr, err.tyName) else none
          extra_hashes := match c.extra_hashes with
            | some m => if m.isEmpty then none else some m
            | none => none }
      .ok { log := st.log ++ [entry]
            sequence_number := st.sequence_number + 1
            previous_entry_hash := hashEntry entry }

/-- A sequence of `log_call` invocations from a given state. -/
def runLog (cfg : LoggerCfg) (st : LoggerState) : List CallData → Except PyErr LoggerState
  | [] => .ok st
  | c :: cs => do runLog cfg (← logCall cfg st c) cs

/-! ## Verifier: hash-chain replay
(embedding of `Verifier._verify_log_chain`, src/vouch/verifier.py
lines 254-280, on entries carrying both checked fields) -/

/-- The chain replay loop: entry index, expected previous hash and
sequence number; returns the index of the first failing entry, or `none`
when the whole log verifies. -/
def verifyChainAux : Nat → String → Nat → List Entry → Option Nat
  | _, _, _, [] => none
  | i, prev, seqE, e :: rest =>
      if e.sequence_number ≠ seqE then some i
      else if e.previous_entry_hash ≠ prev then some i
      else verifyChainAux (i + 1) (hashEntry e) (seqE + 1) rest

/-- Embeds `Verifier._verify_log_chain`: `True` iff the replay finds no failure
(starting from `"0"*64` and sequence number 1). -/
def verifyLogChain (log : List Entry) : Bool :=
  (verifyChainAux 0 zeros64 1 log).isNone

/-- The chain invariant the spec states, as a decidable recursive check:
from seed `prev` and first sequence number `seqE`, each entry holds the
running values and the seed advances to the entry's hash. -/
def chainOk : String → Nat → List Entry → Bool
  | _, _, [] => true
  | prev, seqE, e :: rest =>
      e.previous_entry_hash == prev && e.sequence_number == seqE &&
      chainOk (hashEntry e) (seqE + 1) rest

/-! ## `Hasher.hash_file` (src/vouch/hasher.py lines 96-105)

The filesystem is a map from paths to byte contents.  The source streams
the file in 4096-byte chunks into a single SHA-256 state, which digests
the concatenation, i.e. the whole contents. -/

def hashFile (fs : String → Option (List Nat)) (filepath : String) : String :=
  match fs filepath with
  | some bytes => SHA256.hexDigest bytes
  | none => "N/A"

/-! ## `Verifier.verify` (src/vouch/verifier.py lines 42-103)

The sub-checks that the claims do not reach into (extraction, signature,
environment, git, artifacts, external data) are represented by their
outcomes; the timestamp step and the chain replay are embedded in full.
The sequencing, short-circuiting and status recording mirror the source —
in particular line 75, where the result of `_verify_timestamp` is
discarded. -/

/-- Outcome of `TimestampClient.verify_timestamp` inside
`_verify_timestamp`: returned `True`, returned `False`, or raised. -/
inductive TsOutcome where
  | verified
  | failed
  | raised (msg : String)
deriving DecidableEq, Repr

/-- The package as `verify` observes it. -/
structure PackageData where
  fileExists : Bool
  extractOk : Bool
  componentsOk : Bool
  signatureOk : Bool
  hasTsr : Bool
  tsOutcome : TsOutcome
  logEntries : List Entry
  envOk : Bool
  gitOk : Bool
  artOk : Bool
  dataFileOk : Option Bool
  autoDataOk : Option Bool

/-- The `self.status` record: `valid`, accumulated error messages, and
per-check results. -/
structure VStatus where
  valid : Bool
  errors : List String
  checks : List (String × Bool × String)
deriving DecidableEq, Repr

def VStatus.init : VStatus := ⟨false, [], []⟩

/-- Embeds `Verifier._fail`. -/
def VStatus.fail (st : VStatus) (check msg : String) : VStatus :=
  { st with errors := st.errors ++ [msg], checks := st.checks ++ [(check, false, msg)] }

/-- Embeds `Verifier._pass`. -/
def VStatus.pass2 (st : VStatus) (check msg : String) : VStatus :=
  { st with checks := st.checks ++ [(check, true, msg)] }

/-- Embeds `Verifier._verify_timestamp` (lines 190-217): with no token, `True`;
a failing or raising verification records a failure and returns `False`
only in strict mode, and returns `True` in non-strict mode. -/
def verifyTimestampStep (p : PackageData) (strict : Bool) (st : VStatus) :
    Bool × VStatus :=
  if !p.hasTsr then (true, st)
  else
    match p.tsOutcome with
    | .verified => (true, st)
    | .failed =>
        if strict then (false, st.fail "timestamp" "Timestamp Verification Failed")
        else (true, st)
    | .raised m =>
        if strict then (false, st.fail "timestamp" ("Timestamp Error: " ++ m))
        else (true, st)

/-- Embeds `Verifier.verify`: the boolean it returns and the status it leaves. -/
def Verifier.verify (p : PackageData) (strict : Bool) : Bool × VStatus :=
  let st := VStatus.init
  if !p.fileExists then (false, st.fail "file_exists" "Error: File not found.")
  else if !p.extractOk then (false, st.fail "extraction" "Invalid Vouch file (not a zip).")
  else if !p.componentsOk then (false, st.fail "components" "Corrupt package. Missing components")
  else if !p.signatureOk then (false, st.fail "signature" "Signature Verification: Invalid")
  else
    let st := (st.pass2 "signature" "Signature Verification: Valid").pass2
      "log_integrity" "Log Integrity: Valid"
    -- line 75: the returned boolean of _verify_timestamp is discarded
    let (_tsOk, st) := verifyTimestampStep p strict st
    if !(verifyLogChain p.logEntries) then
      (false, st.fail "log_chain" "Log chain broken")
    else
      let st := st.pass2 "log_chain" "Log Chain Integrity: Valid"
      if !(p.envOk && p.gitOk && p.artOk) then (false, st)
      else if p.dataFileOk == some false then
        (false, st.fail "external_data" "Data Integrity: Mismatched/Corrupted")
      else if p.autoDataOk == some false then
        (false, st.fail "auto_data" "Auto-Data Verification failed")
      else
        (true, { st with valid := true })

/-- The keyword parameters `Verifier.verify` declares
(src/vouch/verifier.py lines 42-48). -/
def verifyKwParams : List String :=
  ["data_file", "auto_data", "auto_data_dir", "tsa_ca_file", "strict", "reporter"]

/-- CPython keyword-call semantics: a keyword argument whose name is not
a declared parameter raises `TypeError` at call time. -/
def pyKwCheck (params : List String) (kwargs : List String) : Except PyErr Unit :=
  match kwargs.find? (fun k => !params.contains k) with
  | some k => .error (.typeErr ("verify() got an unexpected keyword argument " ++ strRepr k))
  | none => .ok ()

/-- The public-key file `_verify_signature` loads (line 178): the
`public_key.pem` bundled inside the package, unconditionally. -/
def verifySignatureKeyFile : String := "public_key.pem"

/-! ## `TraceSession` (src/vouch/session.py) -/

/-- What the key auto-detection of `TraceSession.__init__`
(lines 83-101) observes. -/
structure InitEnv where
  providedKeyPath : Option String
  localKeyExists : Bool
  globalKeyExists : Bool

/-- The session's signing identity after `__init__`. -/
inductive KeyChoice where
  | path (p : String)
  | ephemeral
deriving DecidableEq, Repr

/-- The message of the `AttributeError` raised at src/vouch/session.py
line 99: `CryptoManager.generate_ephemeral_private_key` is defined
nowhere in the repository (`CryptoManager` in src/vouch/crypto.py has
only `generate_keys`, `load_private_key`, `load_public_key`,
`sign_file` and `verify_file`), so the attribute lookup fails. -/
def missingEphemeralMsg : String :=
  "type object " ++ ⟨[sq]⟩ ++ "CryptoManager" ++ ⟨[sq]⟩ ++
  " has no attribute " ++ ⟨[sq]⟩ ++ "generate_ephemeral_private_key" ++ ⟨[sq]⟩

/-- Key resolution in `TraceSession.__init__` (lines 83-101): explicit
path, else the local then global `.vouch/id_rsa`; with no key found,
strict mode without `allow_ephemeral` fails fast with `RuntimeError`,
and the remaining branch — meant to generate an ephemeral key — raises
`AttributeError`, because the `CryptoManager` method it calls at line 99
does not exist. -/
def initKeyResolution (env : InitEnv) (strict allowEphemeral : Bool) :
    Except PyErr KeyChoice :=
  match env.providedKeyPath with
  | some p => .ok (.path p)
  | none =>
      if env.localKeyExists then .ok (.path ".vouch/id_rsa")
      else if env.globalKeyExists then .ok (.path "~/.vouch/id_rsa")
      else if strict && !allowEphemeral then
        .error (.runtimeErr ("Strict mode enabled: No private key found. Ephemeral keys are forbidden in strict mode. Use " ++
          ⟨[sq]⟩ ++ "vouch gen-keys" ++ ⟨[sq]⟩ ++ " or strict=False."))
      else .error (.attributeErr missingEphemeralMsg)

/-- The key `_sign_artifacts` signs with (lines 515-521): the ephemeral
key when one was generated, else the key loaded from the configured
path. -/
inductive SigningKey where
  | ephemeralKey
  | loadedFrom (p : String)
deriving DecidableEq, Repr

def signArtifactsKey : KeyChoice → SigningKey
  | .ephemeral => .ephemeralKey
  | .path p => .loadedFrom p

/-- The `__exit__` guard before `_sign_artifacts` (line 226): sign when
an ephemeral key exists, or the key path is set and the file exists. -/
def exitSignsPackage (kc : KeyChoice) (keyFileExists : Bool) : Bool :=
  match kc with
  | .ephemeral => true
  | .path _ => keyFileExists

/-! ### Session entry (`__enter__`, lines 131-187)

The process state the entry path touches: the context-variable
"one active session" marker, this session's temp workspace and the
logger's stream handle.  The body after the marker is set runs a fixed
sequence of steps (mkdtemp; start_streaming; the initialize log entry,
data dir, seeding, RNG check, script/git capture); `stepFail` is the
index of the first step that raises, if any. -/

structure ProcState where
  active : Bool
  workspace : Bool
  loggerOpen : Bool
deriving DecidableEq, Repr

inductive EnterResult where
  | entered (st : ProcState)
  | raisedE (msg : String) (st : ProcState)
deriving DecidableEq, Repr

/-- Embeds `TraceSession.__enter__`: fail fast on a nested session (before any
state is touched); otherwise set the marker and run the body, and on any
body exception reset the marker, close the logger, remove the workspace
and re-raise. -/
def sessionEnter (st : ProcState) (stepFail : Option Nat) : EnterResult :=
  if st.active then .raisedE "Nested TraceSessions are not supported." st
  else
    match stepFail with
    | none => .entered { active := true, workspace := true, loggerOpen := true }
    | some k =>
        -- steps before index k ran: step 0 creates the workspace,
        -- step 1 opens the log stream; the except block then unwinds
        let _duringBody : ProcState :=
          { active := true, workspace := decide (0 < k), loggerOpen := decide (1 < k) }
        .raisedE "enter failed" { active := false, workspace := false, loggerOpen := false }

/-! ### `add_artifact` (lines 239-278) and artifact packaging -/

/-- What the artifact checks observe about one path.  `targetExists` is
`os.path.exists` (which follows symlinks), `islink` is
`os.path.islink`; `size` and `contentHash` describe the target file when
it exists. -/
structure FileInfo where
  islink : Bool
  targetExists : Bool
  size : Nat
  contentHash : String
deriving DecidableEq, Repr

/-- A source filesystem: paths to link/size/content facts. -/
abbrev ArtFS := String → Option FileInfo

def osPathExists (fs : ArtFS) (p : String) : Bool :=
  match fs p with
  | some fi => fi.targetExists
  | none => false

def osPathIslink (fs : ArtFS) (p : String) : Bool :=
  match fs p with
  | some fi => fi.islink
  | none => false

def osGetsize (fs : ArtFS) (p : String) : Nat :=
  match fs p with
  | some fi => fi.size
  | none => 0

/-- Embeds `os.path.basename`. -/
def basename (p : String) : String :=
  ⟨(p.data.reverse.takeWhile (· ≠ '/')).reverse⟩

def isAbsPath (p : String) : Bool :=
  match p.data with
  | c :: _ => c = '/'
  | [] => false

/-- Python dict assignment `d[k] = v` on an insertion-ordered map. -/
def dictSet (m : List (String × String)) (k v : String) : List (String × String) :=
  if m.any (fun kv => kv.1 == k) then
    m.map fun kv => if kv.1 == k then (k, v) else kv
  else m ++ [(k, v)]

/-- Embeds `_safe_copy_artifact` (lines 422-478): traversal re-check, open with
`O_NOFOLLOW` (a symlink fails with ELOOP and is skipped, a missing file
fails and is skipped), `fstat` size check (oversized skipped), then the
copy into the `data/` dir.  Returns the data-dir contents; a skip leaves
them unchanged. -/
def safeCopyArtifact (maxSize : Nat) (fs : ArtFS) (data : List (String × String))
    (name src : String) : Option (List (String × String)) :=
  if isAbsPath name || containsSub name ".." then none
  else
    match fs src with
    | none => none
    | some fi =>
        if fi.islink then none
        else if !fi.targetExists then none
        else if fi.size > maxSize then none
        else some (dictSet data name fi.contentHash)

/-- Embeds `TraceSession.add_artifact`: validation order as in the source —
existence (per strict mode), symlink (always fatal), size (strict only),
arcname shape — then registration and, with an active session, the
immediate copy. -/
def addArtifact (strict : Bool) (maxSize : Nat) (fs : ArtFS) (sessionActive : Bool)
    (artifacts : List (String × String)) (data : List (String × String))
    (filepath : String) (arcname : Option String) :
    Except PyErr (List (String × String) × List (String × String)) :=
  if !osPathExists fs filepath then
    if strict then .error (.fileNotFound ("Artifact not found: " ++ filepath))
    else .ok (artifacts, data)
  else if osPathIslink fs filepath then
    .error (.valueError ("Symlinks are not allowed: " ++ filepath))
  else if strict && osGetsize fs filepath > maxSize then
    .error (.valueError ("Artifact exceeds maximum size: " ++ filepath))
  else
    let arc := match arcname with
      | some a => a
      | none => basename filepath
    if isAbsPath arc || containsSub arc ".." then
      if strict then .error (.valueError ("Invalid artifact name: " ++ arc))
      else .ok (artifacts, data)
    else
      let artifacts1 := dictSet artifacts arc filepath
      if sessionActive then
        match safeCopyArtifact maxSize fs data arc filepath with
        | some data1 => .ok (artifacts1, data1)
        | none => .ok (artifacts1, data)
      else .ok (artifacts1, data)

/-- Embeds `_process_artifacts` (lines 480-511): copy any artifact not yet in
the data dir, then record the hash of every file present there in the
manifest; artifacts whose copy was skipped are left out. -/
def processArtifacts (maxSize : Nat) (fs : ArtFS)
    (artifacts : List (String × String)) (data0 : List (String × String)) :
    List (String × String) × List (String × String) :=
  artifacts.foldl
    (fun acc nv =>
      let data := acc.1
      let manifest := acc.2
      let data1 :=
        if data.any (fun kv => kv.1 == nv.1) then data
        else match safeCopyArtifact maxSize fs data nv.1 nv.2 with
          | some d => d
          | none => data
      match data1.find? (fun kv => kv.1 == nv.1) with
      | some kv => (data1, dictSet manifest nv.1 kv.2)
      | none => (data1, manifest))
    (data0, [])

/-! ## Dynamic objects: the full `Hasher.hash_object` / `StableJSONEncoder`
model

Arbitrary Python objects, including cyclic structures, objects with
unstable default reprs, `__vouch_hash__` / `to_csv` / `tobytes`
protocols, `__dict__` / `__slots__` fallbacks and registered custom
hashers.  Values live in a heap indexed by object id so that reference
cycles are expressible; `fuel` is the interpreter recursion budget, its
exhaustion raising `RecursionError` exactly where CPython would. -/

/-- The attributes of a non-builtin object that the hasher inspects.
`strRepr` is what `str`/`repr` return; `vouchHash` models the
`__vouch_hash__` method (present and returning the object with that heap
id, or present and raising); `csvText` the text `to_csv` streams;
`tobytesData` the buffer `tobytes` returns; `dictId` the heap id of the
`__dict__`; `slots` the `__slots__` entries that exist on the object. -/
structure ObjData where
  typeName : String
  strRepr : String
  vouchHash : Option (Except PyErr Nat)
  csvText : Option String
  tobytesData : Option (List Nat)
  dictId : Option Nat
  slots : Option (List (String × Nat))

inductive HNode where
  | hstr (s : String)
  | hint (n : Int)
  | hbool (b : Bool)
  | hnone
  | hlist (elems : List Nat)
  | htuple (elems : List Nat)
  | hdict (kvs : List (Nat × Nat))
  | hobj (o : ObjData)

abbrev Heap := List HNode

/-- One entry of `Hasher._registry`: an `isinstance` test and the custom
hash function (which may itself raise). -/
structure RegEntry where
  appliesTo : HNode → Bool
  func : HNode → Except PyErr String

def hLookup (h : Heap) (i : Nat) : Except PyErr HNode :=
  match h[i]? with
  | some n => .ok n
  | none => .error (.genericErr "dangling reference")

def hTypeName : HNode → String
  | .hstr _ => "str"
  | .hint _ => "int"
  | .hbool _ => "bool"
  | .hnone => "NoneType"
  | .hlist _ => "list"
  | .htuple _ => "tuple"
  | .hdict _ => "dict"
  | .hobj o => o.typeName

mutual
/-- Embeds `repr` of a heap value with CPython's container cycle markers
(`Py_ReprEnter`): a container already being printed renders as
`[...]`/`(...)`/braces-ellipsis. -/
def reprH (h : Heap) : Nat → List Nat → Nat → Except PyErr String
  | 0, _, _ => .error .recursionErr
  | f + 1, vis, i => do
      match ← hLookup h i with
      | .hstr s => pure (strRepr s)
      | .hint n => pure (toString n)
      | .hbool b => pure (if b then "True" else "False")
      | .hnone => pure "None"
      | .hlist es =>
          if vis.contains i then pure "[...]"
          else do
            let rs ← reprListH h f (vis ++ [i]) es
            pure ("[" ++ String.intercalate ", " rs ++ "]")
      | .htuple es =>
          if vis.contains i then pure "(...)"
          else do
            let rs ← reprListH h f (vis ++ [i]) es
            match rs with
            | [r] => pure ("(" ++ r ++ ",)")
            | _ => pure ("(" ++ String.intercalate ", " rs ++ ")")
      | .hdict kvs =>
          if vis.contains i then pure "\x7b...\x7d"
          else do
            let rs ← reprKVsH h f (vis ++ [i]) kvs
            pure ("\x7b" ++ String.intercalate ", " rs ++ "\x7d")
      | .hobj o => pure o.strRepr

  termination_by structural f => f
def reprListH (h : Heap) : Nat → List Nat → List Nat → Except PyErr (List String)
  | 0, _, _ => .error .recursionErr
  | _, _, [] => .ok []
  | f + 1, vis, i :: is => do
      let r ← reprH h f vis i
      let rs ← reprListH h f vis is
      pure (r :: rs)

  termination_by structural f => f
def reprKVsH (h : Heap) : Nat → List Nat → List (Nat × Nat) → Except PyErr (List String)
  | 0, _, _ => .error .recursionErr
  | _, _, [] => .ok []
  | f + 1, vis, kv :: rest => do
      let rk ← reprH h f vis kv.1
      let rv ← reprH h f vis kv.2
      let rs ← reprKVsH h f vis rest
      pure ((rk ++ ": " ++ rv) :: rs)
  termination_by structural f => f
end

/-- Embeds `str` of a heap value. -/
def strH (h : Heap) (f : Nat) (i : Nat) : Except PyErr String := do
  match ← hLookup h i with
  | .hstr s => pure s
  | .hobj o => pure o.strRepr
  | _ => reprH h f [] i

/-- The manual dict fallback of the hash dict branch: keys sorted by
`str(key)`, items rendered `repr(k): repr(v)`, joined in braces. -/
def dictFallbackH (h : Heap) : Nat → List (Nat × Nat) → Except PyErr String
  | 0, _ => .error .recursionErr
  | f + 1, kvs => do
      let keyed ← withKeys f kvs
      let sorted := stableSortBy (fun a b => strLe a.1 b.1) keyed
      let items ← mkItems f sorted
      pure ("\x7b" ++ String.intercalate ", " items ++ "\x7d")
where
  withKeys : Nat → List (Nat × Nat) → Except PyErr (List (String × (Nat × Nat)))
    | 0, _ => .error .recursionErr
    | _, [] => .ok []
    | f + 1, kv :: rest => do
        let sk ← strH h f kv.1
        let rs ← withKeys f rest
        pure ((sk, kv) :: rs)
  mkItems : Nat → List (String × (Nat × Nat)) → Except PyErr (List String)
    | 0, _ => .error .recursionErr
    | _, [] => .ok []
    | f + 1, skv :: rest => do
        let rk ← reprH h f [] skv.2.1
        let rv ← reprH h f [] skv.2.2
        let rs ← mkItems f rest
        pure ((rk ++ ": " ++ rv) :: rs)

/-- The manual fallback for the string-keyed dict built from
`__slots__`. -/
def slotsFallbackH (h : Heap) : Nat → List (String × Nat) → Except PyErr String
  | 0, _ => .error .recursionErr
  | f + 1, sl => do
      let sorted := stableSortBy (fun a b => strLe a.1 b.1) sl
      let items ← mkItems f sorted
      pure ("\x7b" ++ String.intercalate ", " items ++ "\x7d")
where
  mkItems : Nat → List (String × Nat) → Except PyErr (List String)
    | 0, _ => .error .recursionErr
    | _, [] => .ok []
    | f + 1, kv :: rest => do
        let rv ← reprH h f [] kv.2
        let rs ← mkItems f rest
        pure ((strRepr kv.1 ++ ": " ++ rv) :: rs)

/-- The substitute value `StableJSONEncoder.default` returns, which
`json.dump` then serializes in its place. -/
inductive Subst where
  | sid (i : Nat)
  | sstr (s : String)
  | sdict (sl : List (String × Nat))

mutual

/-- Embeds `Hasher.hash_object(heap[i], raise_error)` — the outer `try`:
only a `ValueError` under `raise_error` escapes, everything else is
mapped to the `"HASH_FAILED"` sentinel.  At exhausted fuel the
`RecursionError` is caught by this same frame. -/
def hashObjH (h : Heap) (reg : List RegEntry) : Nat → Nat → Bool → Except PyErr String
  | 0, _, _ => .ok "HASH_FAILED"
  | f + 1, i, re =>
      match hashCoreH h reg f i re with
      | .ok s => .ok s
      | .error e => if e.isValueError && re then .error e else .ok "HASH_FAILED"

  termination_by structural f => f
/-- The body of `hash_object`: registry, `__vouch_hash__`, `to_csv`,
`tobytes`, dict, then the default-`str` branch. -/
def hashCoreH (h : Heap) (reg : List RegEntry) : Nat → Nat → Bool → Except PyErr String
  | 0, _, _ => .error .recursionErr
  | f + 1, i, re => do
      let node ← hLookup h i
      match reg.find? (fun r => r.appliesTo node) with
      | some r => r.func node
      | none =>
        match node with
        | .hobj o =>
          match o.vouchHash with
          | some res => do
              let rid ← res
              match ← hLookup h rid with
              | .hstr s => pure s
              | _ => hashObjH h reg f rid re
          | none =>
            match o.csvText with
            | some t => pure (sha256String t)
            | none =>
              match o.tobytesData with
              | some bs => pure (SHA256.hexDigest bs)
              | none => hashDefaultH h reg f i re
        | .hdict kvs => hashDictH h reg f i re kvs
        | _ => hashDefaultH h reg f i re

  termination_by structural f => f
/-- The dict branch: `json.dump` with `StableJSONEncoder`; on failure
the manual sorted fallback; if that fails too, re-raise the first error
under `raise_error`, else the dict sentinel. -/
def hashDictH (h : Heap) (reg : List RegEntry) :
    Nat → Nat → Bool → List (Nat × Nat) → Except PyErr String
  | 0, _, _, _ => .error .recursionErr
  | f + 1, i, re, kvs =>
      match jsonDumpH h reg f re [] i with
      | .ok jv => .ok (sha256String jv.1)
      | .error e =>
          match dictFallbackH h f kvs with
          | .ok s => .ok (sha256String s)
          | .error _ => if re then .error e else .ok "HASH_FAILED_DICT"

  termination_by structural f => f
/-- The default branch: `str(obj)`, the memory-address heuristic, then
the `__dict__` and `__slots__` fallbacks (each swallowing its own
exceptions), then raise-or-placeholder. -/
def hashDefaultH (h : Heap) (reg : List RegEntry) : Nat → Nat → Bool → Except PyErr String
  | 0, _, _ => .error .recursionErr
  | f + 1, i, re => do
      let node ← hLookup h i
      let s ← strH h f i
      if containsSub s " at 0x" && containsSub s ">" then
        match node with
        | .hobj o =>
          match o.dictId with
          | some did =>
              (match hashObjH h reg f did re with
               | .ok s2 => pure s2
               | .error _ => hashUnstableTailH h reg f re o.typeName o.slots)
          | none => hashUnstableTailH h reg f re o.typeName o.slots
        | _ =>
          -- builtin carriers have neither __dict__ nor __slots__
          if re then .error (.valueError (unstableMsg (hTypeName node)))
          else pure (sha256String ("<Unstable: " ++ hTypeName node ++ ">"))
      else pure (sha256String s)

  termination_by structural f => f
/-- After a failed (or absent) `__dict__` fallback: the `__slots__`
fallback, then the warn-and-placeholder (or raise) tail. -/
def hashUnstableTailH (h : Heap) (reg : List RegEntry) :
    Nat → Bool → String → Option (List (String × Nat)) → Except PyErr String
  | 0, _, _, _ => .error .recursionErr
  | f + 1, re, tn, slotsOpt =>
      match slotsOpt with
      | some sl =>
          (match hashSlotsDictH h reg f re sl with
           | .ok s => .ok s
           | .error _ =>
               if re then .error (.valueError (unstableMsg tn))
               else .ok (sha256String ("<Unstable: " ++ tn ++ ">")))
      | none =>
          if re then .error (.valueError (unstableMsg tn))
          else .ok (sha256String ("<Unstable: " ++ tn ++ ">"))

  termination_by structural f => f
/-- Embeds `Hasher.hash_object` on the string-keyed dict built from
`__slots__` (the dict branch on a fresh dict). -/
def hashSlotsDictH (h : Heap) (reg : List RegEntry) :
    Nat → Bool → List (String × Nat) → Except PyErr String
  | 0, _, _ => .error .recursionErr
  | f + 1, re, sl =>
      match jsonMembersWrapH h reg f re [] (stableSortBy (fun a b => strLe a.1 b.1) sl) with
      | .ok jv => .ok (sha256String jv.1)
      | .error e =>
          match slotsFallbackH h f sl with
          | .ok s => .ok (sha256String s)
          | .error _ => if re then .error e else .ok "HASH_FAILED_DICT"

  termination_by structural f => f
/-- Embeds `json.dump(value, ..., sort_keys=True, cls=StableJSONEncoder,
check_circular=False)` on a heap value; `vis` is the encoder
instance's visited-id set, threaded through the dump. -/
def jsonDumpH (h : Heap) (reg : List RegEntry) :
    Nat → Bool → List Nat → Nat → Except PyErr (String × List Nat)
  | 0, _, _, _ => .error .recursionErr
  | f + 1, re, vis, i => do
      let node ← hLookup h i
      match node with
      | .hstr s => pure (jsonStrLit s, vis)
      | .hint n => pure (toString n, vis)
      | .hbool b => pure ((if b then "true" else "false"), vis)
      | .hnone => pure ("null", vis)
      | .hlist es => do
          let rv ← jsonArrH h reg f re vis es
          pure ("[" ++ String.intercalate ", " rv.1 ++ "]", rv.2)
      | .htuple es => do
          let rv ← jsonArrH h reg f re vis es
          pure ("[" ++ String.intercalate ", " rv.1 ++ "]", rv.2)
      | .hdict kvs => jsonObjH h reg f re vis kvs
      | .hobj o =>
          -- StableJSONEncoder.default
          if vis.contains i then
            pure (jsonStrLit ("<Cycle: " ++ o.typeName ++ ">"), vis)
          else
            let vis1 := vis ++ [i]
            match encDefaultH h reg f re o i with
            | .error e =>
                if re then .error e
                else pure (jsonStrLit ("<Serialization Error: " ++ o.typeName ++ ">"), vis1)
            | .ok sub => jsonSubstH h reg f re vis1 sub

  termination_by structural f => f
/-- The `try` body of `StableJSONEncoder.default`: pick the substitute
value (protocol result, array/table hash, `__dict__` copy, `__slots__`
dict, the stable placeholder, or the plain `str`). -/
def encDefaultH (h : Heap) (reg : List RegEntry) :
    Nat → Bool → ObjData → Nat → Except PyErr Subst
  | 0, _, _, _ => .error .recursionErr
  | f + 1, re, o, i =>
      match o.vouchHash with
      | some (.ok rid) => .ok (.sid rid)
      | some (.error e) => .error e
      | none =>
        if o.csvText.isSome || o.tobytesData.isSome then
          -- Hasher.hash_object(obj) with its default raise_error=False
          match hashObjH h reg f i false with
          | .ok s => .ok (.sstr s)
          | .error e => .error e
        else
          let s := o.strRepr
          if containsSub s " at 0x" && containsSub s ">" then
            match o.dictId with
            | some did => .ok (.sid did)
            | none =>
              match o.slots with
              | some sl => .ok (.sdict sl)
              | none =>
                if re then .error (.valueError (unstableMsg o.typeName))
                else .ok (.sstr ("<Unstable: " ++ o.typeName ++ ">"))
          else .ok (.sstr s)

  termination_by structural f => f
/-- Serialization of the substitute `default` returned (outside the
encoder's `try`). -/
def jsonSubstH (h : Heap) (reg : List RegEntry) :
    Nat → Bool → List Nat → Subst → Except PyErr (String × List Nat)
  | 0, _, _, _ => .error .recursionErr
  | f + 1, re, vis, sub =>
      match sub with
      | .sstr s => .ok (jsonStrLit s, vis)
      | .sid i => jsonDumpH h reg f re vis i
      | .sdict sl => jsonMembersWrapH h reg f re vis (stableSortBy (fun a b => strLe a.1 b.1) sl)

  termination_by structural f => f
/-- Array members, visited set threaded left to right. -/
def jsonArrH (h : Heap) (reg : List RegEntry) :
    Nat → Bool → List Nat → List Nat → Except PyErr (List String × List Nat)
  | 0, _, _, _ => .error .recursionErr
  | _, _, vis, [] => .ok ([], vis)
  | f + 1, re, vis, i :: is => do
      let rv ← jsonDumpH h reg f re vis i
      let rest ← jsonArrH h reg f re rv.2 is
      pure (rv.1 :: rest.1, rest.2)

  termination_by structural f => f
/-- A JSON object from heap-id keys: keys must be uniformly strings or
uniformly ints (sorted by their own order, ints rendered in decimal);
anything else raises `TypeError` as `json` (and mixed-type `sorted`)
do. -/
def jsonObjH (h : Heap) (reg : List RegEntry) :
    Nat → Bool → List Nat → List (Nat × Nat) → Except PyErr (String × List Nat)
  | 0, _, _, _ => .error .recursionErr
  | f + 1, re, vis, kvs => do
      let knodes ← keyNodes kvs
      match strKeys knodes with
      | some sk => jsonMembersWrapH h reg f re vis (stableSortBy (fun a b => strLe a.1 b.1) sk)
      | none =>
        match intKeys knodes with
        | some ik =>
            let sorted := stableSortBy (fun a b => decide (a.1 ≤ b.1)) ik
            jsonMembersWrapH h reg f re vis (sorted.map fun kv => (toString kv.1, kv.2))
        | none => .error (.typeErr "keys must be str, int, float, bool or None")
where
  keyNodes : List (Nat × Nat) → Except PyErr (List (HNode × Nat))
    | [] => .ok []
    | kv :: rest => do
        let n ← hLookup h kv.1
        let rs ← keyNodes rest
        pure ((n, kv.2) :: rs)
  strKeys : List (HNode × Nat) → Option (List (String × Nat))
    | [] => some []
    | (.hstr s, v) :: rest => (strKeys rest).map ((s, v) :: ·)
    | _ => none
  intKeys : List (HNode × Nat) → Option (List (Int × Nat))
    | [] => some []
    | (.hint n, v) :: rest => (intKeys rest).map ((n, v) :: ·)
    | _ => none

  termination_by structural f => f
/-- Members of a JSON object from already-sorted string keys. -/
def jsonMembersWrapH (h : Heap) (reg : List RegEntry) :
    Nat → Bool → List Nat → List (String × Nat) → Except PyErr (String × List Nat)
  | 0, _, _, _ => .error .recursionErr
  | f + 1, re, vis, members => do
      let rv ← jsonMembersH h reg f re vis members
      pure ("\x7b" ++ String.intercalate ", " rv.1 ++ "\x7d", rv.2)

  termination_by structural f => f
def jsonMembersH (h : Heap) (reg : List RegEntry) :
    Nat → Bool → List Nat → List (String × Nat) → Except PyErr (List String × List Nat)
  | 0, _, _, _ => .error .recursionErr
  | _, _, vis, [] => .ok ([], vis)
  | f + 1, re, vis, (k, v) :: rest => do
      let rv ← jsonDumpH h reg f re vis v
      let rs ← jsonMembersH h reg f re rv.2 rest
      pure ((jsonStrLit k ++ ": " ++ rv.1) :: rs.1, rs.2)

  termination_by structural f => f
end

/-! ## Concrete instances used by the theorems below -/

/-- A well-formed single log entry (a valid one-entry log), as produced
by `log_call` in light mode. -/
def exEntry : Entry :=
  { timestamp := "2026-01-01T00:00:00+00:00"
    sequence_number := 1
    previous_entry_hash := zeros64
    action := "call"
    target := "calc"
    args_repr := ["1", "2"]
    kwargs_repr := []
    result_repr := "3"
    args_hash := "SKIPPED_LIGHT"
    kwargs_hash := "SKIPPED_LIGHT"
    result_hash := "SKIPPED_LIGHT"
    errorInfo := none
    extra_hashes := none }

/-- The same entry with its recorded result mutated (a content change
that leaves the chain fields untouched). -/
def exEntryMut : Entry := { exEntry with result_repr := "4" }

/-- A second entry correctly chained after `exEntry`. -/
def exEntry2 : Entry :=
  { exEntry with
    sequence_number := 2
    previous_entry_hash := hashEntry exEntry
    target := "calc2" }

/-- Logger configuration in light mode (strict and PII detection off). -/
def cfg0 : LoggerCfg := ⟨true, false, false⟩

/-- A simple call for the witness log. -/
def call0 : CallData :=
  { timestamp := "2026-01-01T00:00:00+00:00"
    target := "calc"
    args := [.int 1, .int 2]
    argsTuple := false
    kwargs := []
    result := .int 3
    extra_hashes := none
    error := none }

/-- A package whose only defect is a timestamp token that fails
verification. -/
def pkgBrokenTs : PackageData :=
  { fileExists := true, extractOk := true, componentsOk := true
    signatureOk := true, hasTsr := true, tsOutcome := .failed
    logEntries := [], envOk := true, gitOk := true, artOk := true
    dataFileOk := none, autoDataOk := none }

/-- Logger configuration with PII detection enabled (strict off, light
off). -/
def piiCfg : LoggerCfg := ⟨false, false, true⟩

/-- Embeds `log_call("send_email", ("bob@example.com",), {}, None)`. -/
def emailCall : CallData :=
  { timestamp := "2026-01-01T00:00:00+00:00"
    target := "send_email"
    args := [.str "bob@example.com"]
    argsTuple := true
    kwargs := []
    result := .noneV
    extra_hashes := none
    error := none }

/-- The entry that call produces. -/
def emailEntry : Entry :=
  { timestamp := "2026-01-01T00:00:00+00:00"
    sequence_number := 1
    previous_entry_hash := zeros64
    action := "call"
    target := "send_email"
    args_repr := [strRepr "<PII: EMAIL>"]
    kwargs_repr := []
    result_repr := "None"
    args_hash := hashObjectD (.tuple [.str "<PII: EMAIL>"])
    kwargs_hash := hashObjectD (.dict [])
    result_hash := hashObjectD .noneV
    errorInfo := none
    extra_hashes := none }

/-- A filesystem with one dangling symlink: `islink` holds but the
target does not exist, so `os.path.exists` is false. -/
def danglingFS : ArtFS :=
  fun p => if p == "link.txt" then some ⟨true, false, 0, "h"⟩ else none

/-- A filesystem with one symlink to an existing file. -/
def linkFS : ArtFS :=
  fun p => if p == "link.txt" then some ⟨true, true, 5, "h"⟩ else none

/-- A filesystem with one oversized regular file. -/
def bigFS : ArtFS :=
  fun p => if p == "big.bin" then some ⟨false, true, 2048, "bighash"⟩ else none

/-- A heap with one object whose default repr carries a memory address
and which offers no `__dict__` or `__slots__` fallback. -/
def unstableHeap : Heap :=
  [.hobj { typeName := "Widget"
           strRepr := "<Widget object at 0x7f0012345678>"
           vouchHash := none, csvText := none, tobytesData := none
           dictId := none, slots := none }]

/-- A heap with a self-referential dict: node 0 is the dict, mapping the
string node 1 to node 0 itself. -/
def cycleHeap : Heap := [.hdict [(1, 0)], .hstr "a"]

/-- A registered custom hasher that matches everything and raises. -/
def throwingReg : List RegEntry :=
  [{ appliesTo := fun _ => true, func := fun _ => .error (.genericErr "boom") }]

instance {ε α : Type} [DecidableEq ε] [DecidableEq α] : DecidableEq (Except ε α) := fun a b =>
  match a, b with
  | .ok x, .ok y =>
      if h : x = y then .isTrue (by rw [h]) else .isFalse (fun hc => h (Except.ok.inj hc))
  | .error x, .error y =>
      if h : x = y then .isTrue (by rw [h]) else .isFalse (fun hc => h (Except.error.inj hc))
  | .ok _, .error _ => .isFalse (fun hc => Except.noConfusion hc)
  | .error _, .ok _ => .isFalse (fun hc => Except.noConfusion hc)

end Vouch

namespace Vouch

/-! ## Theorems -/

/-- C10: for every filesystem path that does not exist, `Hasher.hash_file`
returns the sentinel string `"N/A"`; being a total function of the
filesystem and path, it signals the missing file only through this
in-band value, never by raising. -/
theorem hash_file_missing_sentinel (fs : String → Option (List Nat)) (p : String)
    (h : fs p = none) : hashFile fs p = "N/A" := by
  unfold hashFile
  rw [h]

theorem hash_file_missing_sentinel_witness :
    ((fun _ : String => (none : Option (List Nat))) "input.csv" = none) ∧
    hashFile (fun _ => none) "input.csv" = "N/A" :=
  ⟨rfl, hash_file_missing_sentinel (fun _ => none) "input.csv" rfl⟩

/-- C3 (code bug): `Verifier.verify` declares no `trusted_public_key_path`
parameter — a call passing it raises `TypeError` under CPython keyword
semantics — and `_verify_signature` always loads the package-bundled
`public_key.pem`; the repository's own tests
(`src/tests/test_verifier_security.py`) call
`verify(trusted_public_key_path=...)` and require the supplied key to be
preferred. -/
theorem verify_has_no_trusted_key_param :
    verifyKwParams =
      ["data_file", "auto_data", "auto_data_dir", "tsa_ca_file", "strict", "reporter"] ∧
    verifyKwParams.contains "trusted_public_key_path" = false ∧
    (∃ msg, pyKwCheck verifyKwParams ["trusted_public_key_path"] = .error (.typeErr msg)) ∧
    verifySignatureKeyFile = "public_key.pem" :=
  ⟨rfl, by decide, ⟨_, rfl⟩, rfl⟩

/-- C2 (code bug): on a package whose timestamp token fails verification
and which is otherwise sound, `Verifier.verify` returns `True` in both
strict and non-strict mode — `_verify_timestamp` itself returns `False`
in strict mode and records the failure in the status, but line 75 of
src/vouch/verifier.py discards that return value, so a broken timestamp
produces a verified result in either operating mode, contrary to the
spec's fail-closed requirement. -/
theorem broken_timestamp_verification_passes :
    pkgBrokenTs.hasTsr = true ∧ pkgBrokenTs.tsOutcome = .failed ∧
    (Verifier.verify pkgBrokenTs true).1 = true ∧
    (Verifier.verify pkgBrokenTs false).1 = true ∧
    (Verifier.verify pkgBrokenTs true).2.errors = ["Timestamp Verification Failed"] ∧
    (verifyTimestampStep pkgBrokenTs true VStatus.init).1 = false :=
  ⟨rfl, rfl, rfl, rfl, rfl, rfl⟩

/-- C9 (code bug): with no key path supplied and no key at the local or
global default location, the branch of `TraceSession.__init__` that the
claim (and the constructor's own docstring, log message and the
`allow_ephemeral` gate) says generates an ephemeral key instead raises
`AttributeError` — the `CryptoManager.generate_ephemeral_private_key`
it calls at src/vouch/session.py line 99 is defined nowhere in the
repository — with strict mode off and with `allow_ephemeral` set alike,
so no ephemeral key ever exists for `_sign_artifacts` to sign with
(though that method would use one if it existed); only the
strict-without-`allow_ephemeral` fail-fast branch behaves as claimed. -/
theorem ephemeral_key_generation_crashes :
    initKeyResolution ⟨none, false, false⟩ false false =
      .error (.attributeErr missingEphemeralMsg) ∧
    initKeyResolution ⟨none, false, false⟩ false true =
      .error (.attributeErr missingEphemeralMsg) ∧
    initKeyResolution ⟨none, false, false⟩ true true =
      .error (.attributeErr missingEphemeralMsg) ∧
    (∃ msg, initKeyResolution ⟨none, false, false⟩ true false =
      .error (.runtimeErr msg)) ∧
    signArtifactsKey .ephemeral = .ephemeralKey :=
  ⟨rfl, rfl, rfl, ⟨_, rfl⟩, rfl⟩

/-- C5: entering a `TraceSession` while one is active raises the
descriptive nested-session error before touching any state (the active
marker and the failed session's bookkeeping are exactly as before);
and when entry fails at any step of its body, the marker is reset and
the partial workspace removed before the exception propagates, after
which a fresh session can enter successfully. -/
theorem single_active_session_unwind (st : ProcState) (stepFail : Option Nat) :
    (st.active = true →
        sessionEnter st stepFail = .raisedE "Nested TraceSessions are not supported." st) ∧
    (st.active = false →
        sessionEnter st none = .entered ⟨true, true, true⟩ ∧
        ∀ k, sessionEnter st (some k) = .raisedE "enter failed" ⟨false, false, false⟩ ∧
             sessionEnter ⟨false, false, false⟩ none = .entered ⟨true, true, true⟩) := by
  constructor
  · intro h
    unfold sessionEnter
    rw [h]
    rfl
  · intro h
    unfold sessionEnter
    rw [h]
    exact ⟨rfl, fun _ => ⟨rfl, rfl⟩⟩

theorem single_active_session_unwind_witness :
    ((⟨true, true, true⟩ : ProcState).active = true ∧
     sessionEnter ⟨true, true, true⟩ none =
       .raisedE "Nested TraceSessions are not supported." ⟨true, true, true⟩) ∧
    ((⟨false, false, false⟩ : ProcState).active = false ∧
     sessionEnter ⟨false, false, false⟩ (some 1) =
       .raisedE "enter failed" ⟨false, false, false⟩ ∧
     sessionEnter ⟨false, false, false⟩ none = .entered ⟨true, true, true⟩) :=
  ⟨⟨rfl, (single_active_session_unwind ⟨true, true, true⟩ none).1 rfl⟩,
   ⟨rfl, ((single_active_session_unwind ⟨false, false, false⟩ (some 1)).2 rfl).2 1⟩⟩

/-- C6 counterexample: a dangling symbolic link (for which
`os.path.exists`, which follows links, is false) is not rejected by
`add_artifact` in non-strict mode — the existence check returns silently
before the symlink check runs, so a symlink path exists for which no
error is raised, contrary to the claim that every symlink path always
raises. -/
theorem dangling_symlink_not_rejected :
    osPathIslink danglingFS "link.txt" = true ∧
    addArtifact false (1024 * 1024 * 1024) danglingFS true [] [] "link.txt" none =
      .ok ([], []) :=
  ⟨rfl, rfl⟩

/-- C6 amended: a symlink whose target exists always raises `ValueError`
from `add_artifact`, in strict and non-strict mode alike; a dangling
symlink instead hits the existence check first — `FileNotFoundError` in
strict mode, a silent return (no registration) in non-strict mode. -/
theorem symlink_rejection_amended (strict : Bool) (maxSize : Nat) (fs : ArtFS)
    (active : Bool) (arts data : List (String × String)) (p : String)
    (arc : Option String) (hlink : osPathIslink fs p = true) :
    (osPathExists fs p = true →
        addArtifact strict maxSize fs active arts data p arc =
          .error (.valueError ("Symlinks are not allowed: " ++ p))) ∧
    (osPathExists fs p = false →
        (strict = true →
            addArtifact strict maxSize fs active arts data p arc =
              .error (.fileNotFound ("Artifact not found: " ++ p))) ∧
        (strict = false →
            addArtifact strict maxSize fs active arts data p arc = .ok (arts, data))) := by
  constructor
  · intro hex
    unfold addArtifact
    rw [hex, hlink]
    rfl
  · intro hex
    unfold addArtifact
    rw [hex]
    exact ⟨fun hs => by rw [hs]; rfl, fun hs => by rw [hs]; rfl⟩

theorem symlink_rejection_amended_witness :
    (osPathIslink linkFS "link.txt" = true ∧
     osPathExists linkFS "link.txt" = true ∧
     addArtifact true 100 linkFS true [] [] "link.txt" none =
       .error (.valueError ("Symlinks are not allowed: " ++ "link.txt")) ∧
     addArtifact false 100 linkFS true [] [] "link.txt" none =
       .error (.valueError ("Symlinks are not allowed: " ++ "link.txt"))) ∧
    (osPathIslink danglingFS "link.txt" = true ∧
     osPathExists danglingFS "link.txt" = false ∧
     addArtifact true 100 danglingFS true [] [] "link.txt" none =
       .error (.fileNotFound ("Artifact not found: " ++ "link.txt"))) :=
  ⟨⟨rfl, rfl,
    (symlink_rejection_amended true 100 linkFS true [] [] "link.txt" none rfl).1 rfl,
    (symlink_rejection_amended false 100 linkFS true [] [] "link.txt" none rfl).1 rfl⟩,
   ⟨rfl, rfl,
    ((symlink_rejection_amended true 100 danglingFS true [] [] "link.txt" none rfl).2 rfl).1 rfl⟩⟩

/-- C7: an existing regular artifact whose size exceeds
`max_artifact_size` makes `add_artifact` raise `ValueError` at
registration time in strict mode; in non-strict mode the call succeeds
and registers the artifact, but the immediate copy and the
packaging-time copy both skip it, so it never reaches the data dir or
the `artifacts.json` manifest of the final package. -/
theorem oversized_artifact_enforcement (maxSize : Nat) (fs : ArtFS) (p arc : String)
    (fi : FileInfo) (hfs : fs p = some fi) (hlink : fi.islink = false)
    (hex : fi.targetExists = true) (hsz : maxSize < fi.size)
    (harc1 : isAbsPath arc = false) (harc2 : containsSub arc ".." = false) :
    addArtifact true maxSize fs true [] [] p (some arc) =
      .error (.valueError ("Artifact exceeds maximum size: " ++ p)) ∧
    addArtifact false maxSize fs true [] [] p (some arc) = .ok ([(arc, p)], []) ∧
    processArtifacts maxSize fs [(arc, p)] [] = ([], []) := by
  have hex2 : osPathExists fs p = true := by
    unfold osPathExists
    rw [hfs]
    exact hex
  have hlink2 : osPathIslink fs p = false := by
    unfold osPathIslink
    rw [hfs]
    exact hlink
  have hsize2 : osGetsize fs p = fi.size := by
    unfold osGetsize
    rw [hfs]
  have hcopy : safeCopyArtifact maxSize fs [] arc p = none := by
    unfold safeCopyArtifact
    rw [harc1, harc2, hfs]
    simp [hlink, hex, hsz]
  refine ⟨?_, ?_, ?_⟩
  · unfold addArtifact
    simp [hex2, hlink2, hsize2, hsz]
  · unfold addArtifact
    simp [hex2, hlink2, harc1, harc2, dictSet, hcopy]
  · unfold processArtifacts
    simp [hcopy]

theorem oversized_artifact_enforcement_witness :
    bigFS "big.bin" = some ⟨false, true, 2048, "bighash"⟩ ∧
    (addArtifact true 1024 bigFS true [] [] "big.bin" (some "big.bin") =
       .error (.valueError ("Artifact exceeds maximum size: " ++ "big.bin")) ∧
     addArtifact false 1024 bigFS true [] [] "big.bin" (some "big.bin") =
       .ok ([("big.bin", "big.bin")], []) ∧
     processArtifacts 1024 bigFS [("big.bin", "big.bin")] [] = ([], [])) :=
  ⟨rfl, oversized_artifact_enforcement 1024 bigFS "big.bin" "big.bin"
    ⟨false, true, 2048, "bighash"⟩ rfl rfl rfl (by decide) rfl (by decide)⟩

/-- C8: with PII detection enabled, `log_call` on the single argument
tuple `("bob@example.com",)` produces an entry whose `args_repr` is the
`repr` of the redacted string (so it contains `<PII: EMAIL>`), whose
`args_hash` is exactly `Hasher.hash_object(("<PII: EMAIL>",))`, and
whose `args_hash` differs from the hash of the raw email tuple —
sanitization runs before both the repr capture and the hashing. -/
theorem pii_email_sanitized :
    logCall piiCfg Logger.init emailCall = .ok ⟨[emailEntry], 1, hashEntry emailEntry⟩ ∧
    emailEntry.args_repr = [strRepr "<PII: EMAIL>"] ∧
    containsSub (strRepr "<PII: EMAIL>") "<PII: EMAIL>" = true ∧
    emailEntry.args_hash = hashObjectD (.tuple [.str "<PII: EMAIL>"]) ∧
    emailEntry.args_hash ≠ hashObjectD (.tuple [.str "bob@example.com"]) :=
  ⟨rfl, rfl, by decide, rfl, by decide⟩

/-! ### Hash-chain lemmas -/

/-- Peeling one `Except` bind that produced a success. -/
theorem exceptBind_ok {ε α β : Type} {x : Except ε α} {g : α → Except ε β} {b : β}
    (h : x >>= g = .ok b) : ∃ a, x = .ok a ∧ g a = .ok b := by
  cases x with
  | ok a => exact ⟨a, rfl, h⟩
  | error e => simp [Bind.bind, Except.bind] at h

/-- Every successful `log_call` appends exactly one entry, stamped with
the previous chain head and the incremented sequence number, and moves
the chain head to that entry's hash. -/
theorem logCall_shape (cfg : LoggerCfg) (st : LoggerState) (c : CallData)
    (st' : LoggerState) (h : logCall cfg st c = .ok st') :
    ∃ e : Entry,
      st'.log = st.log ++ [e] ∧
      e.previous_entry_hash = st.previous_entry_hash ∧
      e.sequence_number = st.sequence_number + 1 ∧
      st'.previous_entry_hash = hashEntry e ∧
      st'.sequence_number = st.sequence_number + 1 := by
  unfold logCall at h
  dsimp only at h
  split at h
  · exact Except.noConfusion h
  · split at h
    · exact Except.noConfusion h
    · injection h with h
      subst h
      exact ⟨_, rfl, rfl, rfl, rfl, rfl⟩

/-- A successful run of `log_call`s extends the log by a tail that
chains correctly from the starting state. -/
theorem runLog_chain (cfg : LoggerCfg) (cs : List CallData) :
    ∀ st st', runLog cfg st cs = .ok st' →
      ∃ tail, st'.log = st.log ++ tail ∧
        chainOk st.previous_entry_hash (st.sequence_number + 1) tail = true := by
  induction cs with
  | nil =>
      intro st st' h
      unfold runLog at h
      injection h with h
      subst h
      exact ⟨[], by simp, rfl⟩
  | cons c cs ih =>
      intro st st' h
      unfold runLog at h
      obtain ⟨st1, h1, h2⟩ := exceptBind_ok h
      obtain ⟨e, hlog, hprev, hseq, hprev2, hseq2⟩ := logCall_shape cfg st c st1 h1
      obtain ⟨tail, hlog2, hchain⟩ := ih st1 st' h2
      refine ⟨e :: tail, ?_, ?_⟩
      · rw [hlog2, hlog, List.append_assoc]
        rfl
      · unfold chainOk
        rw [hprev, hseq]
        simp only [beq_self_eq_true, Bool.true_and]
        rw [hprev2, hseq2] at hchain
        exact hchain

/-- The chain replay of `_verify_log_chain` finds no failure exactly on
chains satisfying the invariant. -/
theorem verifyChainAux_none_iff :
    ∀ (lg : List Entry) (i : Nat) (prev : String) (seqE : Nat),
      verifyChainAux i prev seqE lg = none ↔ chainOk prev seqE lg = true := by
  intro lg
  induction lg with
  | nil => intro i prev seqE; simp [verifyChainAux, chainOk]
  | cons e rest ih =>
      intro i prev seqE
      unfold verifyChainAux chainOk
      by_cases h1 : e.sequence_number = seqE
      · by_cases h2 : e.previous_entry_hash = prev
        · simp [h1, h2, ih]
        · simp [h1, h2]
      · simp [h1]

/-- The chain invariant in the spec's pointwise formulation. -/
theorem chainOk_pointwise :
    ∀ (lg : List Entry) (prev : String) (seqE : Nat),
      chainOk prev seqE lg = true ↔
        ((∀ h0 : 0 < lg.length, (lg.get ⟨0, h0⟩).previous_entry_hash = prev) ∧
         (∀ i, ∀ hi : i + 1 < lg.length,
            (lg.get ⟨i + 1, hi⟩).previous_entry_hash =
              hashEntry (lg.get ⟨i, Nat.lt_of_succ_lt hi⟩)) ∧
         (∀ i, ∀ hi : i < lg.length, (lg.get ⟨i, hi⟩).sequence_number = seqE + i)) := by
  intro lg
  induction lg with
  | nil =>
      intro prev seqE
      simp [chainOk]
  | cons e rest ih =>
      intro prev seqE
      unfold chainOk
      simp only [Bool.and_eq_true, beq_iff_eq]
      constructor
      · rintro ⟨⟨hp, hs⟩, hrest⟩
        have hr := (ih (hashEntry e) (seqE + 1)).mp hrest
        refine ⟨fun _ => hp, ?_, ?_⟩
        · intro i hi
          cases i with
          | zero => exact hr.1 (by simpa using Nat.lt_of_succ_lt_succ hi)
          | succ j =>
              exact hr.2.1 j (by simpa using Nat.lt_of_succ_lt_succ hi)
        · intro i hi
          cases i with
          | zero => simpa using hs
          | succ j =>
              have := hr.2.2 j (by simpa using Nat.lt_of_succ_lt_succ hi)
              simpa [Nat.add_comm, Nat.add_left_comm] using this
      · rintro ⟨h0, hlink, hseq⟩
        refine ⟨⟨h0 (by simp), by simpa using hseq 0 (by simp)⟩, ?_⟩
        refine (ih (hashEntry e) (seqE + 1)).mpr ⟨?_, ?_, ?_⟩
        · intro hr0
          have := hlink 0 (by simpa using Nat.succ_lt_succ hr0)
          simpa using this
        · intro i hi
          have := hlink (i + 1) (by simpa using Nat.succ_lt_succ hi)
          simpa using this
        · intro i hi
          have := hseq (i + 1) (by simpa using Nat.succ_lt_succ hi)
          simpa [Nat.add_comm, Nat.add_left_comm] using this

/-- Replacing a non-final entry of a valid chain by one with a different
hash makes the replay fail at the entry's index (when its chain fields
changed) or at the next index (when only its content changed). -/
theorem mutation_detected (l1 : List Entry) :
    ∀ (i0 : Nat) (prev : String) (seqE : Nat) (e e2 e' : Entry) (l2 : List Entry),
      chainOk prev seqE (l1 ++ e :: e2 :: l2) = true →
      hashEntry e' ≠ hashEntry e →
      ∃ j, verifyChainAux i0 prev seqE (l1 ++ e' :: e2 :: l2) = some j ∧
        i0 + l1.length ≤ j := by
  induction l1 with
  | nil =>
      intro i0 prev seqE e e2 e' l2 hok hne
      simp only [List.nil_append, chainOk, Bool.and_eq_true, beq_iff_eq] at hok
      obtain ⟨⟨hp, hs⟩, ⟨hp2, hs2⟩, -⟩ := hok
      by_cases h1 : e'.sequence_number = seqE
      · by_cases h2 : e'.previous_entry_hash = prev
        · refine ⟨i0 + 1, ?_, by simp⟩
          show verifyChainAux i0 prev seqE (e' :: e2 :: l2) = some (i0 + 1)
          unfold verifyChainAux
          rw [if_neg (fun hc => hc h1), if_neg (fun hc => hc h2)]
          unfold verifyChainAux
          rw [if_neg (fun hc => hc hs2),
            if_pos (show e2.previous_entry_hash ≠ hashEntry e' by
              rw [hp2]; exact fun hc => hne hc.symm)]
        · refine ⟨i0, ?_, by simp⟩
          show verifyChainAux i0 prev seqE (e' :: e2 :: l2) = some i0
          unfold verifyChainAux
          rw [if_neg (fun hc => hc h1), if_pos h2]
      · refine ⟨i0, ?_, by simp⟩
        show verifyChainAux i0 prev seqE (e' :: e2 :: l2) = some i0
        unfold verifyChainAux
        rw [if_pos h1]
  | cons a rest ih =>
      intro i0 prev seqE e e2 e' l2 hok hne
      simp only [List.cons_append, chainOk, Bool.and_eq_true, beq_iff_eq] at hok
      obtain ⟨⟨hp, hs⟩, hok2⟩ := hok
      obtain ⟨j, hj, hle⟩ := ih (i0 + 1) (hashEntry a) (seqE + 1) e e2 e' l2 hok2 hne
      refine ⟨j, ?_, by simp only [List.length_cons]; omega⟩
      rw [List.cons_append]
      unfold verifyChainAux
      rw [if_neg (fun hc => hc hs), if_neg (fun hc => hc hp)]
      exact hj

/-- C1 (amended): a log built by a sequence of `Logger.log_call`
invocations satisfies the chain invariant — first `previous_entry_hash`
the 64-char zero string, each later one the hash of the preceding entry,
sequence numbers 1, 2, 3, … — and `Verifier._verify_log_chain` accepts
exactly the logs satisfying it; mutating any single NON-FINAL entry so
that its hash changes makes the replay fail at an index at least that of
the mutated entry.  (Mutating the final entry is not detected by chain
verification — see `last_entry_mutation_undetected` — only by the log
signature.) -/
theorem log_chain_integrity :
    (∀ cfg cs st', runLog cfg Logger.init cs = .ok st' →
        chainOk zeros64 1 st'.log = true ∧ verifyLogChain st'.log = true) ∧
    (∀ lg : List Entry, verifyLogChain lg = true ↔ chainOk zeros64 1 lg = true) ∧
    (∀ lg : List Entry, chainOk zeros64 1 lg = true ↔
        ((∀ h0 : 0 < lg.length, (lg.get ⟨0, h0⟩).previous_entry_hash = zeros64) ∧
         (∀ i, ∀ hi : i + 1 < lg.length,
            (lg.get ⟨i + 1, hi⟩).previous_entry_hash =
              hashEntry (lg.get ⟨i, Nat.lt_of_succ_lt hi⟩)) ∧
         (∀ i, ∀ hi : i < lg.length, (lg.get ⟨i, hi⟩).sequence_number = 1 + i))) ∧
    (∀ (l1 : List Entry) (e e2 e' : Entry) (l2 : List Entry),
        chainOk zeros64 1 (l1 ++ e :: e2 :: l2) = true →
        hashEntry e' ≠ hashEntry e →
        ∃ j, verifyChainAux 0 zeros64 1 (l1 ++ e' :: e2 :: l2) = some j ∧
          l1.length ≤ j) ∧
    (zeros64.length = 64 ∧ zeros64.data.all (· = '0') = true) := by
  refine ⟨?_, ?_, ?_, ?_, by decide, by decide⟩
  · intro cfg cs st' h
    obtain ⟨tail, hlog, hchain⟩ := runLog_chain cfg cs Logger.init st' h
    have hl : st'.log = tail := by simpa [Logger.init] using hlog
    have hc : chainOk zeros64 1 st'.log = true := by
      rw [hl]
      simpa [Logger.init] using hchain
    exact ⟨hc, by
      unfold verifyLogChain
      rw [Option.isNone_iff_eq_none, verifyChainAux_none_iff]
      exact hc⟩
  · intro lg
    unfold verifyLogChain
    rw [Option.isNone_iff_eq_none, verifyChainAux_none_iff]
  · intro lg
    exact chainOk_pointwise lg zeros64 1
  · intro l1 e e2 e' l2 hok hne
    simpa using mutation_detected l1 0 zeros64 1 e e2 e' l2 hok hne

set_option maxHeartbeats 4000000 in
theorem log_chain_integrity_witness :
    (runLog cfg0 Logger.init [call0] = .ok ⟨[exEntry], 1, hashEntry exEntry⟩ ∧
     chainOk zeros64 1 [exEntry] = true ∧ verifyLogChain [exEntry] = true) ∧
    (chainOk zeros64 1 ([] ++ exEntry :: exEntry2 :: []) = true ∧
     hashEntry exEntryMut ≠ hashEntry exEntry ∧
     ∃ j, verifyChainAux 0 zeros64 1 ([] ++ exEntryMut :: exEntry2 :: []) = some j ∧
       ([] : List Entry).length ≤ j) := by
  have hrun : runLog cfg0 Logger.init [call0] = .ok ⟨[exEntry], 1, hashEntry exEntry⟩ := by
    decide
  have hok : chainOk zeros64 1 ([] ++ exEntry :: exEntry2 :: []) = true := by decide
  have hne : hashEntry exEntryMut ≠ hashEntry exEntry := by decide
  have hmain := (log_chain_integrity.1 cfg0 [call0] ⟨[exEntry], 1, hashEntry exEntry⟩ hrun)
  exact ⟨⟨hrun, hmain.1, hmain.2⟩,
    hok, hne, log_chain_integrity.2.2.2.1 [] exEntry exEntry2 exEntryMut [] hok hne⟩

set_option maxHeartbeats 4000000 in
/-- C1 counterexample to the claim as stated: a valid one-entry log
whose single (hence final) entry has its content mutated — the entry
differs and its hash differs — still passes `_verify_log_chain`, because
no later entry re-checks the mutated one's hash. -/
theorem last_entry_mutation_undetected :
    verifyLogChain [exEntry] = true ∧
    exEntryMut ≠ exEntry ∧
    hashEntry exEntryMut ≠ hashEntry exEntry ∧
    verifyLogChain [exEntryMut] = true :=
  ⟨rfl, by decide, by decide, rfl⟩

/-! ### Totality of the dynamic hasher -/

/-- The outer handler of `hash_object` maps every failure to a sentinel
unless it is a `ValueError` under `raise_error`. -/
theorem hashObjH_total (h : Heap) (reg : List RegEntry) (f i : Nat) :
    ∃ s, hashObjH h reg f i false = .ok s := by
  cases f with
  | zero => exact ⟨"HASH_FAILED", by simp [hashObjH]⟩
  | succ f =>
      unfold hashObjH
      cases hc : hashCoreH h reg f i false with
      | ok s => exact ⟨s, rfl⟩
      | error e => exact ⟨"HASH_FAILED", by simp⟩

set_option maxHeartbeats 4000000 in
/-- C4: `hash_object` with `raise_error=False` always returns a string —
for every heap (any object graph, cyclic or not), every custom-hasher
registry and every recursion budget; an unstable default repr without a
usable `__dict__`/`__slots__` hashes to the stable type-tagged
placeholder; a self-referential dict is hashed through the sorted-repr
fallback (cycle markers included) instead of crashing; and a raising
custom hasher yields the `"HASH_FAILED"` sentinel rather than
propagating. -/
theorem hash_object_never_raises :
    (∀ (h : Heap) (reg : List RegEntry) (f i : Nat),
        ∃ s, hashObjH h reg f i false = .ok s) ∧
    hashObjH unstableHeap [] 16 0 false =
      .ok (sha256String ("<Unstable: " ++ "Widget" ++ ">")) ∧
    hashObjH cycleHeap [] 16 0 false =
      .ok (sha256String
        ("\x7b" ++ strRepr "a" ++ ": \x7b" ++ strRepr "a" ++ ": \x7b...\x7d\x7d\x7d")) ∧
    hashObjH unstableHeap throwingReg 16 0 false = .ok "HASH_FAILED" :=
  ⟨hashObjH_total, by decide, by decide, by decide⟩

end Vouch
